import Mathlib

/-!
Verification of the flight segmentation and airport resolution core of
src/streamlit_app.py. Timestamps are modelled as integer seconds (the
code only ever compares elapsed seconds against the constant 4*3600),
coordinates as rational degrees, callsigns as `Option String` where
`none` is a blank/absent callsign (Python `None`).
-/

set_option autoImplicit false

/-- One position report: a row of `flight_df` as built by
`fetch_flight_data_for_aircraft` (src/streamlit_app.py lines 57-58):
`absolute_timestamp` (seconds), `latitude`, `longitude`, `flight_callsign`. -/
structure PositionReport where
  timestamp : ℤ
  latitude : ℚ
  longitude : ℚ
  callsign : Option String
deriving DecidableEq

/-- One airport record of `airports_df` after the `dropna` of line 84:
`name`, `municipality`, `latitude`, `longitude` all present. -/
structure Airport where
  name : String
  municipality : String
  latitude : ℚ
  longitude : ℚ
deriving DecidableEq

/-- One row of `summary_df` (lines 124-127 and 133-136):
`departure_airport`, `arrival_airport`, `departure_time`. -/
structure FlightSummary where
  departure_airport : String
  arrival_airport : String
  departure_time : ℤ
deriving DecidableEq

/-- Squared degree-distance of a query coordinate to one airport, the
per-row value of the `distances` series of line 69:
`(airports_df.latitude - lat)**2 + (airports_df.longitude - lon)**2`. -/
def sqDist (lat lon : ℚ) (a : Airport) : ℚ :=
  (a.latitude - lat) * (a.latitude - lat) + (a.longitude - lon) * (a.longitude - lon)

/-- The airport selected by `airports_df.loc[distances.idxmin()]` (line 70):
the first airport attaining the minimal squared distance, scanning the
table in order starting from head `a0`. -/
def idxminAirport (lat lon : ℚ) (a0 : Airport) (rest : List Airport) : Airport :=
  rest.foldl (fun best a => if sqDist lat lon a < sqDist lat lon best then a else best) a0

/-- The value `distances.min()` of line 71: minimum squared distance over
the table, scanning from head `a0`. -/
def minDist (lat lon : ℚ) (a0 : Airport) (rest : List Airport) : ℚ :=
  rest.foldl (fun m a => min m (sqDist lat lon a)) (sqDist lat lon a0)

/-- `find_nearest_airport` (lines 67-73). On an empty table
`distances.idxmin()` raises (undefined argmin), modelled as an error.
Otherwise the label of the first-minimal airport is returned when the
minimal squared distance is strictly below `0.5**2`, else the sentinel. -/
def find_nearest_airport (lat lon : ℚ) : List Airport → Except String String
  | [] => Except.error "InvalidInput: argmin of an empty sequence"
  | a0 :: rest =>
    if minDist lat lon a0 rest < (1/2 : ℚ) * (1/2) then
      Except.ok ((idxminAirport lat lon a0 rest).name ++ ", " ++
        (idxminAirport lat lon a0 rest).municipality)
    else
      Except.ok "Unknown Airfield or Location"

/-- The `is_new_flight` predicate of the summary loop (lines 118-119),
evaluated at adjacent sorted reports `x` (index i-1) and `y` (index i):
`time_diff.iloc[i] > 4*3600 or (callsign[i] != callsign[i-1] and
pd.notna(callsign[i]))`. Raw callsigns are compared; `pd.notna` of a
blank callsign is false. -/
def summaryBoundary (x y : PositionReport) : Bool :=
  decide (y.timestamp - x.timestamp > 4 * 3600) ||
    (decide (y.callsign ≠ x.callsign) && y.callsign.isSome)

/-- Splitting loop shared shape of lines 117-131: walk the sorted list,
close the accumulated segment (kept reversed in `acc`) at each boundary,
and emit the trailing segment at the end. -/
def splitRun {α : Type} (b : α → α → Bool) (prev : α) (acc : List α) :
    List α → List (List α)
  | [] => [acc.reverse]
  | r :: rest =>
    if b prev r then acc.reverse :: splitRun b r [r] rest
    else splitRun b r (r :: acc) rest

/-- The segment grouping of the summary loop (lines 115-131): segments
`flight_df.iloc[flight_start_index:i]` for each boundary `i`, plus the
trailing `flight_df.iloc[flight_start_index:]`. -/
def splitSegs {α : Type} (b : α → α → Bool) : List α → List (List α)
  | [] => []
  | r :: rest => splitRun b r [r] rest

/-- Running cumulative-sum of boundary booleans (the `cumsum` of line
175) continued after a first element that already received id `k`. -/
def segIdsRun {α : Type} (b : α → α → Bool) (prev : α) (k : ℕ) :
    List α → List ℕ
  | [] => []
  | r :: rest =>
    if b prev r then (k + 1) :: segIdsRun b r (k + 1) rest
    else k :: segIdsRun b r k rest

/-- Per-report segment ids as computed by
`flight_df.flight_id = flight_segments.cumsum()` (line 175). The first
report always compares unequal to the shifted NaN, so the first id is 1. -/
def segIds {α : Type} (b : α → α → Bool) : List α → List ℕ
  | [] => []
  | r :: rest => 1 :: segIdsRun b r 1 rest

/-- Summary rows built from a list of segments, one per nonempty segment
(lines 121-127 and 130-136): departure resolved at the first report of
the segment, arrival at the last, departure time from the first. An
empty segment is skipped, matching the `if not segment.empty` guard. -/
def summariesOf (airports : List Airport) :
    List (List PositionReport) → Except String (List FlightSummary)
  | [] => Except.ok []
  | [] :: rest => summariesOf airports rest
  | (s :: tl) :: rest => do
    let e := tl.getLastD s
    let dep ← find_nearest_airport s.latitude s.longitude airports
    let arr ← find_nearest_airport e.latitude e.longitude airports
    let others ← summariesOf airports rest
    Except.ok (⟨dep, arr, s.timestamp⟩ :: others)

/-- The whole `flight_summaries` computation (lines 115-136) on the
timestamp-sorted report list. -/
def summarize (rs : List PositionReport) (airports : List Airport) :
    Except String (List FlightSummary) :=
  summariesOf airports (splitSegs summaryBoundary rs)

/-- Forward fill of line 173
(`flight_df.flight_callsign.fillna(method=ffill)`): each report is
paired with its filled callsign, a blank callsign replaced by the carry
of the most recent non-blank one. -/
def attachFfillAux (carry : Option String) :
    List PositionReport → List (PositionReport × Option String)
  | [] => []
  | r :: rest =>
    (r, if r.callsign.isSome then r.callsign else carry) ::
      attachFfillAux (if r.callsign.isSome then r.callsign else carry) rest

/-- Forward fill started with no carried callsign: reports before the
first non-blank callsign stay blank. -/
def attachFfill (rs : List PositionReport) :
    List (PositionReport × Option String) :=
  attachFfillAux none rs

/-- The map-coloring boundary of line 174, at adjacent filled reports:
`time_diff > 4*3600 or filled_callsign != filled_callsign.shift()`. -/
def mapBoundary (p q : PositionReport × Option String) : Bool :=
  decide (q.1.timestamp - p.1.timestamp > 4 * 3600) || decide (q.2 ≠ p.2)

/-- The `flight_id` column of line 175: cumulative sum of the
map-coloring boundaries over the forward-filled reports. -/
def mapIds (rs : List PositionReport) : List ℕ :=
  segIds mapBoundary (attachFfill rs)

/-- The groups of `flight_df.groupby(flight_id)` (line 177): contiguous
runs of reports between map-coloring boundaries. -/
def mapSegments (rs : List PositionReport) : List (List PositionReport) :=
  (splitSegs mapBoundary (attachFfill rs)).map (List.map Prod.fst)

/-- The minimum of the distance series equals the squared distance of the
first-minimal airport picked by the scan. -/
theorem minDist_eq_idxmin (lat lon : ℚ) (rest : List Airport) : ∀ a0 : Airport,
    minDist lat lon a0 rest = sqDist lat lon (idxminAirport lat lon a0 rest) := by
  induction rest with
  | nil => intro a0; rfl
  | cons a1 tl ih =>
    intro a0
    have h0 : min (sqDist lat lon a0) (sqDist lat lon a1)
        = sqDist lat lon (if sqDist lat lon a1 < sqDist lat lon a0 then a1 else a0) := by
      split_ifs with h
      · exact min_eq_right h.le
      · exact min_eq_left (not_lt.mp h)
    simp only [minDist, idxminAirport, List.foldl_cons]
    rw [h0]
    exact ih _

/-- The airport picked by the scan is a member of the table. -/
theorem idxminAirport_mem (lat lon : ℚ) (rest : List Airport) :
    ∀ a0 : Airport, idxminAirport lat lon a0 rest ∈ a0 :: rest := by
  induction rest with
  | nil => intro a0; simp [idxminAirport]
  | cons a1 tl ih =>
    intro a0
    have hstep : idxminAirport lat lon a0 (a1 :: tl)
        = idxminAirport lat lon (if sqDist lat lon a1 < sqDist lat lon a0 then a1 else a0) tl := rfl
    rw [hstep]
    rcases List.mem_cons.mp (ih (if sqDist lat lon a1 < sqDist lat lon a0 then a1 else a0)) with h1 | h1
    · rw [h1]; split_ifs <;> simp
    · simp [h1]

/-- The airport picked by the scan minimises the squared distance over
the whole table. -/
theorem idxminAirport_le (lat lon : ℚ) (rest : List Airport) :
    ∀ a0 a : Airport, a ∈ a0 :: rest →
      sqDist lat lon (idxminAirport lat lon a0 rest) ≤ sqDist lat lon a := by
  induction rest with
  | nil =>
    intro a0 a ha
    have h1 : a = a0 := by simpa using ha
    subst h1
    simp [idxminAirport]
  | cons a1 tl ih =>
    intro a0 a ha
    by_cases h : sqDist lat lon a1 < sqDist lat lon a0
    · have hstep : idxminAirport lat lon a0 (a1 :: tl) = idxminAirport lat lon a1 tl := by
        simp [idxminAirport, List.foldl_cons, h]
      rw [hstep]
      rcases List.mem_cons.mp ha with h1 | h1
      · subst h1
        exact le_trans (ih a1 a1 (List.mem_cons_self a1 tl)) h.le
      · exact ih a1 a h1
    · have hstep : idxminAirport lat lon a0 (a1 :: tl) = idxminAirport lat lon a0 tl := by
        simp [idxminAirport, List.foldl_cons, h]
      rw [hstep]
      rcases List.mem_cons.mp ha with h1 | h1
      · subst h1
        exact ih a a (List.mem_cons_self a tl)
      · rcases List.mem_cons.mp h1 with h2 | h2
        · subst h2
          exact le_trans (ih a0 a0 (List.mem_cons_self a0 tl)) (not_lt.mp h)
        · exact ih a0 a (List.mem_cons_of_mem a0 h2)

/-- On a nonempty table the resolver always returns a value, never an
error. -/
theorem find_nearest_ok (lat lon : ℚ) (airports : List Airport) (h : airports ≠ []) :
    ∃ s, find_nearest_airport lat lon airports = Except.ok s := by
  cases airports with
  | nil => exact absurd rfl h
  | cons a0 rest =>
    by_cases hlt : minDist lat lon a0 rest < (1/2 : ℚ) * (1/2)
    · exact ⟨_, by rw [find_nearest_airport, if_pos hlt]⟩
    · exact ⟨_, by rw [find_nearest_airport, if_neg hlt]⟩

/-- Concatenating the segments produced by the splitting loop restores
the accumulated prefix followed by the remaining input. -/
theorem splitRun_join {α : Type} (b : α → α → Bool) :
    ∀ (l : List α) (prev : α) (acc : List α),
      (splitRun b prev acc l).flatten = acc.reverse ++ l := by
  intro l
  induction l with
  | nil => intro prev acc; simp [splitRun]
  | cons r rest ih =>
    intro prev acc
    cases hb : b prev r with
    | true => simp [splitRun, hb, ih]
    | false => simp [splitRun, hb, ih]

/-- Concatenating all segments restores the input list. -/
theorem splitSegs_join {α : Type} (b : α → α → Bool) (l : List α) :
    (splitSegs b l).flatten = l := by
  cases l with
  | nil => rfl
  | cons r rest => simpa using splitRun_join b rest r [r]

/-- The splitting loop always produces at least one segment. -/
theorem splitRun_ne_nil {α : Type} (b : α → α → Bool) :
    ∀ (l : List α) (prev : α) (acc : List α), splitRun b prev acc l ≠ [] := by
  intro l
  induction l with
  | nil => intro prev acc; simp [splitRun]
  | cons r rest ih =>
    intro prev acc
    cases hb : b prev r with
    | true => simp [splitRun, hb]
    | false => simp only [splitRun, hb]; exact ih r (r :: acc)

/-- Every segment produced by the splitting loop from a nonempty
accumulator is nonempty. -/
theorem splitRun_mem_ne_nil {α : Type} (b : α → α → Bool) :
    ∀ (l : List α) (prev : α) (acc : List α), acc ≠ [] →
      ∀ seg ∈ splitRun b prev acc l, seg ≠ [] := by
  intro l
  induction l with
  | nil =>
    intro prev acc hacc seg hseg
    simp [splitRun] at hseg
    subst hseg
    simpa using hacc
  | cons r rest ih =>
    intro prev acc hacc seg hseg
    cases hb : b prev r with
    | true =>
      simp only [splitRun, hb, if_true] at hseg
      rcases List.mem_cons.mp hseg with h1 | h1
      · subst h1; simpa using hacc
      · exact ih r [r] (by simp) seg h1
    | false =>
      simp only [splitRun, hb] at hseg
      exact ih r (r :: acc) (by simp) seg hseg

/-- The id list is as long as the input it is computed from. -/
theorem segIdsRun_length {α : Type} (b : α → α → Bool) :
    ∀ (l : List α) (prev : α) (k : ℕ), (segIdsRun b prev k l).length = l.length := by
  intro l
  induction l with
  | nil => intro prev k; rfl
  | cons r rest ih =>
    intro prev k
    cases hb : b prev r <;> simp [segIdsRun, hb, ih]

/-- Every report receives exactly one segment id. -/
theorem segIds_length {α : Type} (b : α → α → Bool) (l : List α) :
    (segIds b l).length = l.length := by
  cases l with
  | nil => rfl
  | cons r rest => simp [segIds, segIdsRun_length]

/-- Segment ids are monotone and advance by at most one at each step. -/
theorem segIdsRun_chain {α : Type} (b : α → α → Bool) :
    ∀ (l : List α) (prev : α) (k : ℕ),
      List.Chain' (fun m n => m ≤ n ∧ n ≤ m + 1) (k :: segIdsRun b prev k l) := by
  intro l
  induction l with
  | nil => intro prev k; exact List.chain'_singleton k
  | cons r rest ih =>
    intro prev k
    cases hb : b prev r with
    | true =>
      simp only [segIdsRun, hb, if_true]
      exact List.chain'_cons.mpr ⟨⟨Nat.le_succ k, le_refl _⟩, ih r (k + 1)⟩
    | false =>
      have hstep : segIdsRun b prev k (r :: rest) = k :: segIdsRun b r k rest := by
        simp [segIdsRun, hb]
      rw [hstep]
      exact List.chain'_cons.mpr ⟨⟨le_refl k, Nat.le_succ k⟩, ih r k⟩

/-- Adjacent positions of the running id list receive equal ids exactly
when the boundary predicate is false between the corresponding inputs. -/
theorem segIdsRun_adj {α : Type} (b : α → α → Bool) :
    ∀ (l : List α) (prev : α) (k i : ℕ) (x y : α),
      l[i]? = some x → l[i+1]? = some y →
      ((segIdsRun b prev k l)[i]? = (segIdsRun b prev k l)[i+1]? ↔ b x y = false) := by
  intro l
  induction l with
  | nil => intro prev k i x y hx hy; simp at hx
  | cons r rest ih =>
    intro prev k i x y hx hy
    cases i with
    | zero =>
      have hx0 : x = r := by simpa using hx.symm
      subst hx0
      cases rest with
      | nil => simp at hy
      | cons y0 rest2 =>
        have hy0 : y0 = y := by simpa using hy
        subst hy0
        cases hb : b prev x with
        | true =>
          cases hby : b x y0 with
          | true => simp [segIdsRun, hb, hby]
          | false => simp [segIdsRun, hb, hby]
        | false =>
          cases hby : b x y0 with
          | true => simp [segIdsRun, hb, hby]
          | false => simp [segIdsRun, hb, hby]
    | succ j =>
      have hx1 : rest[j]? = some x := by simpa using hx
      have hy1 : rest[j+1]? = some y := by simpa using hy
      cases hb : b prev r with
      | true =>
        have hstep : segIdsRun b prev k (r :: rest)
            = (k + 1) :: segIdsRun b r (k + 1) rest := by simp [segIdsRun, hb]
        rw [hstep]
        simpa using ih r (k + 1) j x y hx1 hy1
      | false =>
        have hstep : segIdsRun b prev k (r :: rest)
            = k :: segIdsRun b r k rest := by simp [segIdsRun, hb]
        rw [hstep]
        simpa using ih r k j x y hx1 hy1

/-- Two adjacent reports receive the same segment id exactly when the
boundary predicate is false between them. -/
theorem segIds_adj {α : Type} (b : α → α → Bool) (l : List α) (i : ℕ) (x y : α)
    (hx : l[i]? = some x) (hy : l[i+1]? = some y) :
    ((segIds b l)[i]? = (segIds b l)[i+1]? ↔ b x y = false) := by
  cases l with
  | nil => simp at hx
  | cons r rest =>
    cases i with
    | zero =>
      have hx0 : x = r := by simpa using hx.symm
      subst hx0
      cases rest with
      | nil => simp at hy
      | cons y0 rest2 =>
        have hy0 : y0 = y := by simpa using hy
        subst hy0
        cases hby : b x y0 with
        | true => simp [segIds, segIdsRun, hby]
        | false => simp [segIds, segIdsRun, hby]
    | succ j =>
      have hx1 : rest[j]? = some x := by simpa using hx
      have hy1 : rest[j+1]? = some y := by simpa using hy
      have hstep : segIds b (r :: rest) = 1 :: segIdsRun b r 1 rest := rfl
      rw [hstep]
      simpa using segIdsRun_adj b rest r 1 j x y hx1 hy1

/-- Dropping the filled callsigns recovers the report list. -/
theorem attachFfillAux_map_fst :
    ∀ (l : List PositionReport) (carry : Option String),
      (attachFfillAux carry l).map Prod.fst = l := by
  intro l
  induction l with
  | nil => intro c; rfl
  | cons r rest ih => intro c; simp [attachFfillAux, ih]

/-- Forward fill does not change the number of reports. -/
theorem attachFfill_length (rs : List PositionReport) :
    (attachFfill rs).length = rs.length := by
  have h := congrArg List.length (attachFfillAux_map_fst rs none)
  simpa [attachFfill] using h

/-- The report at any position of the filled list is the report at the
same position of the input. -/
theorem attachFfill_getElem (rs : List PositionReport) (i : ℕ) (x : PositionReport)
    (hx : rs[i]? = some x) : ∃ f, (attachFfill rs)[i]? = some (x, f) := by
  have h1 : ((attachFfill rs).map Prod.fst)[i]? = some x := by
    rw [attachFfill, attachFfillAux_map_fst]
    exact hx
  rw [List.getElem?_map] at h1
  cases hp : (attachFfill rs)[i]? with
  | none => rw [hp] at h1; simp at h1
  | some p =>
    rw [hp] at h1
    simp only [Option.map_some'] at h1
    have h2 : p.1 = x := by simpa using h1
    refine ⟨p.2, ?_⟩
    rw [← h2]

/-- A report with a non-blank callsign is paired with its own callsign
by the forward fill. -/
theorem attachFfillAux_some :
    ∀ (l : List PositionReport) (carry : Option String)
      (p : PositionReport × Option String),
      p ∈ attachFfillAux carry l → p.1.callsign.isSome = true → p.2 = p.1.callsign := by
  intro l
  induction l with
  | nil => intro carry p hp; simp [attachFfillAux] at hp
  | cons r rest ih =>
    intro carry p hp hs
    simp only [attachFfillAux, List.mem_cons] at hp
    rcases hp with hp | hp
    · subst hp
      simp only at hs
      simp [hs]
    · exact ih _ p hp hs

/-- Adjacent filled callsigns: the later one is the later report's own
callsign if non-blank, else the earlier filled callsign. -/
theorem attachFfillAux_adj :
    ∀ (l : List PositionReport) (carry : Option String) (i : ℕ)
      (x y : PositionReport) (fx fy : Option String),
      (attachFfillAux carry l)[i]? = some (x, fx) →
      (attachFfillAux carry l)[i+1]? = some (y, fy) →
      fy = if y.callsign.isSome then y.callsign else fx := by
  intro l
  induction l with
  | nil => intro carry i x y fx fy hx hy; simp [attachFfillAux] at hx
  | cons r rest ih =>
    intro carry i x y fx fy hx hy
    cases i with
    | zero =>
      cases rest with
      | nil => simp [attachFfillAux] at hy
      | cons r2 rest2 =>
        simp only [attachFfillAux, List.getElem?_cons_zero, List.getElem?_cons_succ,
          Option.some.injEq, Prod.mk.injEq] at hx hy
        obtain ⟨hx1, hx2⟩ := hx
        obtain ⟨hy1, hy2⟩ := hy
        subst hx1
        subst hy1
        rw [← hy2, ← hx2]
    | succ j =>
      simp only [attachFfillAux, List.getElem?_cons_succ] at hx hy
      exact ih _ j x y fx fy hx hy

/-- On a nonempty airport table, building summaries from nonempty
segments always succeeds, one row per segment. -/
theorem summariesOf_ok (airports : List Airport) (h : airports ≠ []) :
    ∀ segs : List (List PositionReport), (∀ seg ∈ segs, seg ≠ []) →
      ∃ l, summariesOf airports segs = Except.ok l ∧ l.length = segs.length := by
  intro segs
  induction segs with
  | nil => intro _; exact ⟨[], rfl, rfl⟩
  | cons seg rest ih =>
    intro hne
    cases seg with
    | nil => exact absurd rfl (hne [] (List.mem_cons_self _ _))
    | cons s tl =>
      obtain ⟨dep, hdep⟩ := find_nearest_ok s.latitude s.longitude airports h
      obtain ⟨arr, harr⟩ :=
        find_nearest_ok (tl.getLastD s).latitude (tl.getLastD s).longitude airports h
      obtain ⟨l, hl, hlen⟩ := ih (fun sg hm => hne sg (List.mem_cons_of_mem _ hm))
      refine ⟨⟨dep, arr, s.timestamp⟩ :: l, ?_, by simp [hlen]⟩
      have harr2 : find_nearest_airport (tl.getLast?.getD s).latitude
          (tl.getLast?.getD s).longitude airports = Except.ok arr := by
        simpa [List.getLastD_eq_getLast?] using harr
      simp only [summariesOf, List.getLastD_eq_getLast?, hdep, harr2, hl]
      rfl

/-- C6: resolving any coordinate against an empty airport table fails
with an error (the undefined argmin), and in particular never returns
the sentinel or any airport label. -/
theorem empty_table_resolves_to_error (lat lon : ℚ) :
    find_nearest_airport lat lon []
      = Except.error "InvalidInput: argmin of an empty sequence" ∧
    ∀ s, find_nearest_airport lat lon [] ≠ Except.ok s := by
  refine ⟨rfl, ?_⟩
  intro s hcon
  simp [find_nearest_airport] at hcon

/-- C1 (amended): on a nonempty airport table the resolver returns the
label of the airport minimising the squared degree-distance whenever
that minimum is strictly below 0.25, and returns the sentinel whenever
that minimum is at least 0.25. The original claim put the boundary case
of a minimum equal to exactly 0.25 on the label side; the code uses a
strict comparison and returns the sentinel there. -/
theorem resolver_threshold (lat lon : ℚ) (airports : List Airport)
    (h : airports ≠ []) :
    ∃ best ∈ airports,
      (∀ a ∈ airports, sqDist lat lon best ≤ sqDist lat lon a) ∧
      (sqDist lat lon best < 1/4 →
        find_nearest_airport lat lon airports
          = Except.ok (best.name ++ ", " ++ best.municipality)) ∧
      (1/4 ≤ sqDist lat lon best →
        find_nearest_airport lat lon airports
          = Except.ok "Unknown Airfield or Location") := by
  cases airports with
  | nil => exact absurd rfl h
  | cons a0 rest =>
    have hq : (1/2 : ℚ) * (1/2) = 1/4 := by norm_num
    refine ⟨idxminAirport lat lon a0 rest, idxminAirport_mem lat lon rest a0,
      idxminAirport_le lat lon rest a0, ?_, ?_⟩
    · intro hlt
      rw [find_nearest_airport, if_pos]
      rw [minDist_eq_idxmin lat lon rest a0, hq]
      exact hlt
    · intro hge
      rw [find_nearest_airport, if_neg]
      rw [minDist_eq_idxmin lat lon rest a0, hq]
      exact not_lt.mpr hge

/-- Witness for resolver_threshold at a concrete one-airport table. -/
theorem resolver_threshold_witness :
    ([(⟨"A", "CityA", 0, 0⟩ : Airport)] ≠ []) ∧
    (∃ best ∈ [(⟨"A", "CityA", 0, 0⟩ : Airport)],
      (∀ a ∈ [(⟨"A", "CityA", 0, 0⟩ : Airport)], sqDist 0 0 best ≤ sqDist 0 0 a) ∧
      (sqDist 0 0 best < 1/4 →
        find_nearest_airport 0 0 [(⟨"A", "CityA", 0, 0⟩ : Airport)]
          = Except.ok (best.name ++ ", " ++ best.municipality)) ∧
      (1/4 ≤ sqDist 0 0 best →
        find_nearest_airport 0 0 [(⟨"A", "CityA", 0, 0⟩ : Airport)]
          = Except.ok "Unknown Airfield or Location")) :=
  ⟨by simp, resolver_threshold 0 0 [⟨"A", "CityA", 0, 0⟩] (by simp)⟩

/-- C1 (counterexample): a single airport at squared degree-distance
exactly 1/4 from the query resolves to the sentinel, although the claim
requires the airport label whenever the minimum is at most 0.25. -/
theorem resolver_threshold_cex :
    sqDist 0 0 ⟨"A", "CityA", 0, 1/2⟩ = 1/4 ∧
    find_nearest_airport 0 0 [⟨"A", "CityA", 0, 1/2⟩]
      = Except.ok "Unknown Airfield or Location" := by
  constructor
  · norm_num [sqDist]
  · rw [find_nearest_airport, if_neg]
    norm_num [minDist, sqDist]

/-- C4: two adjacent reports of the sorted sequence separated by more
than four hours are placed in different segments, under both the
summary-loop boundary and the map-coloring boundary, regardless of
their callsigns. -/
theorem gap_rule (rs : List PositionReport) (i : ℕ) (x y : PositionReport)
    (hx : rs[i]? = some x) (hy : rs[i+1]? = some y)
    (hgap : y.timestamp - x.timestamp > 4 * 3600) :
    (segIds summaryBoundary rs)[i]? ≠ (segIds summaryBoundary rs)[i+1]? ∧
    (mapIds rs)[i]? ≠ (mapIds rs)[i+1]? := by
  constructor
  · intro hcon
    have hb := (segIds_adj summaryBoundary rs i x y hx hy).mp hcon
    simp [summaryBoundary] at hb
    have h1 := hb.1
    omega
  · intro hcon
    obtain ⟨fx, hfx⟩ := attachFfill_getElem rs i x hx
    obtain ⟨fy, hfy⟩ := attachFfill_getElem rs (i+1) y hy
    have hb := (segIds_adj mapBoundary (attachFfill rs) i (x, fx) (y, fy) hfx hfy).mp hcon
    simp [mapBoundary] at hb
    have h1 := hb.1
    omega

/-- Witness for gap_rule: two reports 20000 seconds apart. -/
theorem gap_rule_witness :
    (([⟨0, 0, 0, some "AB1"⟩, ⟨20000, 0, 0, some "AB1"⟩] :
        List PositionReport)[0]? = some ⟨0, 0, 0, some "AB1"⟩) ∧
    ((20000 : ℤ) - 0 > 4 * 3600) ∧
    (segIds summaryBoundary [⟨0, 0, 0, some "AB1"⟩, ⟨20000, 0, 0, some "AB1"⟩])[0]?
      ≠ (segIds summaryBoundary [⟨0, 0, 0, some "AB1"⟩, ⟨20000, 0, 0, some "AB1"⟩])[1]? ∧
    (mapIds [⟨0, 0, 0, some "AB1"⟩, ⟨20000, 0, 0, some "AB1"⟩])[0]?
      ≠ (mapIds [⟨0, 0, 0, some "AB1"⟩, ⟨20000, 0, 0, some "AB1"⟩])[1]? :=
  ⟨rfl, by decide,
    gap_rule [⟨0, 0, 0, some "AB1"⟩, ⟨20000, 0, 0, some "AB1"⟩] 0
      ⟨0, 0, 0, some "AB1"⟩ ⟨20000, 0, 0, some "AB1"⟩ rfl rfl (by decide)⟩

/-- C3 (counterexample): a non-blank callsign equal to the forward-filled
callsign of the previous blank report still opens a new summary segment,
although the two adjacent reports are 100 seconds apart and their
forward-filled callsigns coincide. -/
theorem callsign_continuity_cex :
    ((200 : ℤ) - 100 ≤ 4 * 3600) ∧
    (attachFfill [⟨0, 0, 0, some "AB1"⟩, ⟨100, 0, 0, none⟩, ⟨200, 0, 0, some "AB1"⟩]).map
        Prod.snd = [some "AB1", some "AB1", some "AB1"] ∧
    segIds summaryBoundary
        [⟨0, 0, 0, some "AB1"⟩, ⟨100, 0, 0, none⟩, ⟨200, 0, 0, some "AB1"⟩] = [1, 1, 2] ∧
    (segIds summaryBoundary
        [⟨0, 0, 0, some "AB1"⟩, ⟨100, 0, 0, none⟩, ⟨200, 0, 0, some "AB1"⟩])[1]?
      ≠ (segIds summaryBoundary
        [⟨0, 0, 0, some "AB1"⟩, ⟨100, 0, 0, none⟩, ⟨200, 0, 0, some "AB1"⟩])[2]? := by
  refine ⟨by decide, by decide, by decide, by decide⟩

/-- C3 (amended): two adjacent reports at most four hours apart are in
the same summary segment when the later callsign is blank or the raw
callsigns are equal. Equality of forward-filled callsigns alone is not
enough: the summary loop compares raw callsigns, so a non-blank callsign
directly after a blank report opens a new segment even when the forward
fill makes the two filled callsigns equal. -/
theorem callsign_continuity_amended (rs : List PositionReport) (i : ℕ)
    (x y : PositionReport)
    (hx : rs[i]? = some x) (hy : rs[i+1]? = some y)
    (hdt : y.timestamp - x.timestamp ≤ 4 * 3600)
    (hcs : y.callsign = none ∨ y.callsign = x.callsign) :
    (segIds summaryBoundary rs)[i]? = (segIds summaryBoundary rs)[i+1]? := by
  refine (segIds_adj summaryBoundary rs i x y hx hy).mpr ?_
  have h1 : ¬ (y.timestamp - x.timestamp > 4 * 3600) := not_lt.mpr hdt
  rcases hcs with h2 | h2
  · simp [summaryBoundary, h1, h2]
    omega
  · simp [summaryBoundary, h1, h2]
    omega

/-- Witness for callsign_continuity_amended: a report with a blank
callsign 100 seconds after one with a callsign stays in its segment. -/
theorem callsign_continuity_amended_witness :
    ((100 : ℤ) - 0 ≤ 4 * 3600) ∧
    (segIds summaryBoundary [⟨0, 0, 0, some "AB1"⟩, ⟨100, 0, 0, none⟩])[0]?
      = (segIds summaryBoundary [⟨0, 0, 0, some "AB1"⟩, ⟨100, 0, 0, none⟩])[1]? :=
  ⟨by decide,
    callsign_continuity_amended [⟨0, 0, 0, some "AB1"⟩, ⟨100, 0, 0, none⟩] 0
      ⟨0, 0, 0, some "AB1"⟩ ⟨100, 0, 0, none⟩ rfl rfl (by decide) (Or.inl rfl)⟩

/-- C2 (counterexample): a single-report input yields a single-report
segment and the summary builder still produces a row for it, although
the claim says a one-report segment is excluded from the summary. -/
theorem single_report_summarized_cex :
    splitSegs summaryBoundary [⟨0, 0, 0, some "AB1"⟩] = [[⟨0, 0, 0, some "AB1"⟩]] ∧
    summarize [⟨0, 0, 0, some "AB1"⟩] [⟨"A", "CityA", 0, 0⟩]
      = Except.ok [⟨"A, CityA", "A, CityA", 0⟩] := by
  constructor
  · rfl
  · have h : find_nearest_airport 0 0 [⟨"A", "CityA", 0, 0⟩] = Except.ok "A, CityA" := by
      rw [find_nearest_airport, if_pos]
      · rfl
      · norm_num [minDist, sqDist]
    show summariesOf _ _ = _
    simp only [splitSegs, splitRun, List.reverse_cons, List.reverse_nil, List.nil_append,
      summariesOf, List.getLastD]
    rw [h]
    rfl

/-- C2 (amended): the summary loop checks segments only for being
nonempty, not for holding at least two reports: on a nonempty airport
table it emits exactly one row per segment, and every segment is
nonempty (but may well hold a single report). -/
theorem one_row_per_nonempty_segment (rs : List PositionReport)
    (airports : List Airport) (h : airports ≠ []) :
    (∀ seg ∈ splitSegs summaryBoundary rs, seg ≠ []) ∧
    ∃ l, summarize rs airports = Except.ok l ∧
      l.length = (splitSegs summaryBoundary rs).length := by
  have hne : ∀ seg ∈ splitSegs summaryBoundary rs, seg ≠ [] := by
    cases rs with
    | nil => intro seg hseg; simp [splitSegs] at hseg
    | cons r rest =>
      exact fun seg hm => splitRun_mem_ne_nil summaryBoundary rest r [r] (by simp) seg hm
  exact ⟨hne, summariesOf_ok airports h (splitSegs summaryBoundary rs) hne⟩

/-- Witness for one_row_per_nonempty_segment at a one-report input. -/
theorem one_row_per_nonempty_segment_witness :
    ([(⟨"A", "CityA", 0, 0⟩ : Airport)] ≠ []) ∧
    ((∀ seg ∈ splitSegs summaryBoundary [(⟨0, 0, 0, some "AB1"⟩ : PositionReport)],
        seg ≠ []) ∧
      ∃ l, summarize [(⟨0, 0, 0, some "AB1"⟩ : PositionReport)]
          [(⟨"A", "CityA", 0, 0⟩ : Airport)] = Except.ok l ∧
        l.length = (splitSegs summaryBoundary
          [(⟨0, 0, 0, some "AB1"⟩ : PositionReport)]).length) :=
  ⟨by simp,
    one_row_per_nonempty_segment [⟨0, 0, 0, some "AB1"⟩] [⟨"A", "CityA", 0, 0⟩] (by simp)⟩

/-- C5 (counterexample): a two-report input whose callsigns are blank
throughout (no callsign ever observed) still produces a summary row,
although the claim says a wholly blank segment produces none. -/
theorem blank_segment_summarized_cex :
    (∀ r ∈ ([⟨0, 0, 0, none⟩, ⟨60, 0, 0, none⟩] : List PositionReport),
      r.callsign = none) ∧
    summarize [⟨0, 0, 0, none⟩, ⟨60, 0, 0, none⟩] [⟨"A", "CityA", 0, 0⟩]
      = Except.ok [⟨"A, CityA", "A, CityA", 0⟩] := by
  constructor
  · decide
  · have h : find_nearest_airport 0 0 [⟨"A", "CityA", 0, 0⟩] = Except.ok "A, CityA" := by
      rw [find_nearest_airport, if_pos]
      · rfl
      · norm_num [minDist, sqDist]
    show summariesOf _ _ = _
    have hsplit : splitSegs summaryBoundary
        ([⟨0, 0, 0, none⟩, ⟨60, 0, 0, none⟩] : List PositionReport)
        = [[⟨0, 0, 0, none⟩, ⟨60, 0, 0, none⟩]] := by decide
    rw [hsplit]
    simp only [summariesOf, List.getLastD_eq_getLast?, List.getLast?_singleton,
      Option.getD_some]
    rw [h]
    rfl

/-- C5 (amended): the summary loop applies no callsign filter at all: on
a nonempty airport table, an input whose callsigns are blank throughout
still yields one summary row per segment, at least one row when the
input is nonempty. -/
theorem blank_segments_still_summarized (rs : List PositionReport)
    (airports : List Airport) (hrs : rs ≠ [])
    (hblank : ∀ r ∈ rs, r.callsign = none) (ha : airports ≠ []) :
    ∃ l, summarize rs airports = Except.ok l ∧
      l.length = (splitSegs summaryBoundary rs).length ∧ 1 ≤ l.length := by
  cases rs with
  | nil => exact absurd rfl hrs
  | cons r rest =>
    have hne : ∀ seg ∈ splitSegs summaryBoundary (r :: rest), seg ≠ [] :=
      fun seg hm => splitRun_mem_ne_nil summaryBoundary rest r [r] (by simp) seg hm
    obtain ⟨l, hl, hlen⟩ := summariesOf_ok airports ha _ hne
    refine ⟨l, hl, hlen, ?_⟩
    rw [hlen]
    have hnn : splitSegs summaryBoundary (r :: rest) ≠ [] :=
      splitRun_ne_nil summaryBoundary rest r [r]
    exact List.length_pos.mpr hnn

/-- Witness for blank_segments_still_summarized at a one-report blank
input. -/
theorem blank_segments_still_summarized_witness :
    ([(⟨0, 0, 0, none⟩ : PositionReport)] ≠ []) ∧
    (∀ r ∈ ([⟨0, 0, 0, none⟩] : List PositionReport), r.callsign = none) ∧
    ([(⟨"A", "CityA", 0, 0⟩ : Airport)] ≠ []) ∧
    (∃ l, summarize [(⟨0, 0, 0, none⟩ : PositionReport)]
        [(⟨"A", "CityA", 0, 0⟩ : Airport)] = Except.ok l ∧
      l.length = (splitSegs summaryBoundary
        [(⟨0, 0, 0, none⟩ : PositionReport)]).length ∧ 1 ≤ l.length) :=
  ⟨by simp, by decide, by simp,
    blank_segments_still_summarized [⟨0, 0, 0, none⟩] [⟨"A", "CityA", 0, 0⟩]
      (by simp) (by decide) (by simp)⟩

/-- C10: a nonempty report sequence summarised against a nonempty
airport table always yields at least one row: the trailing segment is
emitted unconditionally, even with one report or only blank callsigns. -/
theorem nonempty_input_yields_summary (rs : List PositionReport)
    (airports : List Airport) (hrs : rs ≠ []) (ha : airports ≠ []) :
    ∃ l, summarize rs airports = Except.ok l ∧ 1 ≤ l.length := by
  cases rs with
  | nil => exact absurd rfl hrs
  | cons r rest =>
    have hne : ∀ seg ∈ splitSegs summaryBoundary (r :: rest), seg ≠ [] :=
      fun seg hm => splitRun_mem_ne_nil summaryBoundary rest r [r] (by simp) seg hm
    obtain ⟨l, hl, hlen⟩ := summariesOf_ok airports ha _ hne
    refine ⟨l, hl, ?_⟩
    rw [hlen]
    exact List.length_pos.mpr (splitRun_ne_nil summaryBoundary rest r [r])

/-- Witness for nonempty_input_yields_summary. -/
theorem nonempty_input_yields_summary_witness :
    ([(⟨5, 1, 1, none⟩ : PositionReport)] ≠ []) ∧
    ([(⟨"B", "CityB", 1, 1⟩ : Airport)] ≠ []) ∧
    (∃ l, summarize [(⟨5, 1, 1, none⟩ : PositionReport)]
        [(⟨"B", "CityB", 1, 1⟩ : Airport)] = Except.ok l ∧ 1 ≤ l.length) :=
  ⟨by simp, by simp,
    nonempty_input_yields_summary [⟨5, 1, 1, none⟩] [⟨"B", "CityB", 1, 1⟩]
      (by simp) (by simp)⟩

/-- C8: the map-coloring segment ids partition the input: flattening the
groups restores the input list (every report in exactly one contiguous
segment, no duplicates, in order), each report gets exactly one id, ids
are monotone non-decreasing advancing by at most one, and the first id
is 1. -/
theorem segment_ids_partition (rs : List PositionReport) :
    (mapSegments rs).flatten = rs ∧
    (mapIds rs).length = rs.length ∧
    List.Chain' (fun m n => m ≤ n ∧ n ≤ m + 1) (mapIds rs) ∧
    (rs ≠ [] → (mapIds rs).head? = some 1) := by
  refine ⟨?_, ?_, ?_, ?_⟩
  · rw [mapSegments, ← List.map_flatten, splitSegs_join, attachFfill,
      attachFfillAux_map_fst]
  · rw [mapIds, segIds_length, attachFfill_length]
  · rw [mapIds]
    cases h : attachFfill rs with
    | nil => exact List.chain'_nil
    | cons p ps => exact segIdsRun_chain mapBoundary ps p 1
  · intro hne
    cases rs with
    | nil => exact absurd rfl hne
    | cons r rest => rfl

/-- Witness for segment_ids_partition at a one-report input. -/
theorem segment_ids_partition_witness :
    (mapSegments [(⟨0, 0, 0, some "AB1"⟩ : PositionReport)]).flatten
        = [⟨0, 0, 0, some "AB1"⟩] ∧
    (mapIds [(⟨0, 0, 0, some "AB1"⟩ : PositionReport)]).length
        = ([⟨0, 0, 0, some "AB1"⟩] : List PositionReport).length ∧
    List.Chain' (fun m n => m ≤ n ∧ n ≤ m + 1)
        (mapIds [(⟨0, 0, 0, some "AB1"⟩ : PositionReport)]) ∧
    (mapIds [(⟨0, 0, 0, some "AB1"⟩ : PositionReport)]).head? = some 1 :=
  ⟨(segment_ids_partition [⟨0, 0, 0, some "AB1"⟩]).1,
    (segment_ids_partition [⟨0, 0, 0, some "AB1"⟩]).2.1,
    (segment_ids_partition [⟨0, 0, 0, some "AB1"⟩]).2.2.1,
    (segment_ids_partition [⟨0, 0, 0, some "AB1"⟩]).2.2.2 (by simp)⟩

/-- C9 (counterexample): on a blank report sitting between two reports
carrying the same callsign, the summary-loop boundary opens a new
segment at the third report while the map-coloring boundary does not:
the two id assignments differ on the same input. -/
theorem boundary_predicates_disagree_cex :
    segIds summaryBoundary
        [⟨0, 0, 0, some "AB1"⟩, ⟨100, 0, 0, none⟩, ⟨200, 0, 0, some "AB1"⟩]
      = [1, 1, 2] ∧
    mapIds [⟨0, 0, 0, some "AB1"⟩, ⟨100, 0, 0, none⟩, ⟨200, 0, 0, some "AB1"⟩]
      = [1, 1, 1] :=
  ⟨by decide, by decide⟩

/-- C9 (amended): at an adjacent pair of the forward-filled sequence the
summary-loop boundary and the map-coloring boundary coincide whenever
the earlier callsign is non-blank, or the later callsign is blank, or
the earlier filled callsign differs from the later raw callsign. The
only disagreement is a non-blank callsign directly following a blank
report whose forward-filled callsign already equals it: there the
summary loop starts a new segment and the map coloring does not. -/
theorem boundary_predicates_agree (rs : List PositionReport) (i : ℕ)
    (x y : PositionReport) (fx fy : Option String)
    (hx : (attachFfill rs)[i]? = some (x, fx))
    (hy : (attachFfill rs)[i+1]? = some (y, fy))
    (hside : x.callsign.isSome = true ∨ y.callsign = none ∨ fx ≠ y.callsign) :
    summaryBoundary x y = mapBoundary (x, fx) (y, fy) := by
  have hfy : fy = if y.callsign.isSome then y.callsign else fx :=
    attachFfillAux_adj rs none i x y fx fy hx hy
  have hmem : (x, fx) ∈ attachFfill rs := List.getElem?_mem hx
  cases hyc : y.callsign with
  | none =>
    have hfy2 : fy = fx := by rw [hfy, hyc]; rfl
    simp [summaryBoundary, mapBoundary, hyc, hfy2]
  | some c =>
    have hfy2 : fy = some c := by rw [hfy, hyc]; rfl
    cases hxc : x.callsign with
    | some d =>
      have hfx : fx = x.callsign :=
        attachFfillAux_some rs none (x, fx) hmem (by rw [hxc]; rfl)
      rw [hxc] at hfx
      simp [summaryBoundary, mapBoundary, hyc, hxc, hfy2, hfx]
    | none =>
      have hfx_ne : fx ≠ some c := by
        rcases hside with h | h | h
        · rw [hxc] at h; exact absurd h (by simp)
        · rw [hyc] at h; exact absurd h (by simp)
        · rw [hyc] at h; exact h
      have hne2 : some c ≠ fx := Ne.symm hfx_ne
      simp [summaryBoundary, mapBoundary, hyc, hxc, hfy2, hfx_ne, hne2]

/-- Witness for boundary_predicates_agree at a pair of reports with two
distinct non-blank callsigns. -/
theorem boundary_predicates_agree_witness :
    ((attachFfill [⟨0, 0, 0, some "AB1"⟩, ⟨100, 0, 0, some "AB2"⟩])[0]?
        = some (⟨0, 0, 0, some "AB1"⟩, some "AB1")) ∧
    ((attachFfill [⟨0, 0, 0, some "AB1"⟩, ⟨100, 0, 0, some "AB2"⟩])[1]?
        = some (⟨100, 0, 0, some "AB2"⟩, some "AB2")) ∧
    summaryBoundary ⟨0, 0, 0, some "AB1"⟩ ⟨100, 0, 0, some "AB2"⟩
      = mapBoundary (⟨0, 0, 0, some "AB1"⟩, some "AB1")
          (⟨100, 0, 0, some "AB2"⟩, some "AB2") :=
  ⟨by decide, by decide,
    boundary_predicates_agree [⟨0, 0, 0, some "AB1"⟩, ⟨100, 0, 0, some "AB2"⟩] 0
      ⟨0, 0, 0, some "AB1"⟩ ⟨100, 0, 0, some "AB2"⟩ (some "AB1") (some "AB2")
      (by decide) (by decide) (Or.inl rfl)⟩
